import Mathlib

/-!
Verification of the ingestion/normalization pipeline and the navigation/filter
state machine of the instance-application dashboard (`src/app.py`).

The Python program is shallowly embedded:
* JSON values decoded by `json.loads` become the inductive type `Json`
  (mutually defined with `JList`/`JFields` so that decidable equality can be
  derived).  The JSON *parser* itself is not modelled: an uploaded file carries
  the outcome `json.loads` would produce on its bytes (`ParseOutcome`).
* Exceptions become `Except`: `load_and_validate_json` raises `ValueError`s
  whose final message strings are reproduced exactly.
* `pandas` DataFrames become `DataFrame` (a column-name list plus a list of
  flat `AppRecord` rows); Streamlit session state becomes `AppState`.
* Python `float` arithmetic in `round(len(df) / nunique, 1)` is modelled
  exactly on ℚ: the quotient is rounded to the nearest IEEE-754 binary64
  value (`floatOfRat`: 53 significant bits, ties to even) and `round(x, 1)`
  then rounds that double to the nearest tenth and returns the double
  nearest the resulting decimal (`pyRoundFloat1`), as CPython does.
-/

/-! ## JSON values -/

mutual
inductive Json where
  | null
  | bool (b : Bool)
  | num (n : Int)
  | str (s : String)
  | arr (elems : JList)
  | obj (fields : JFields)
inductive JList where
  | nil
  | cons (hd : Json) (tl : JList)
inductive JFields where
  | nil
  | cons (key : String) (val : Json) (tl : JFields)
end
deriving instance DecidableEq for Json, JList, JFields

deriving instance DecidableEq for Except

def JList.toList : JList → List Json
  | .nil => []
  | .cons x xs => x :: xs.toList

def JList.ofList : List Json → JList
  | [] => .nil
  | x :: xs => .cons x (JList.ofList xs)

def JFields.toList : JFields → List (String × Json)
  | .nil => []
  | .cons k v xs => (k, v) :: xs.toList

def JFields.ofList : List (String × Json) → JFields
  | [] => .nil
  | (k, v) :: xs => .cons k v (JFields.ofList xs)

theorem toList_ofList_jlist (l : List Json) : (JList.ofList l).toList = l := by
  induction l with
  | nil => rfl
  | cons x xs ih => simp [JList.ofList, JList.toList, ih]

theorem toList_ofList_jfields (l : List (String × Json)) :
    (JFields.ofList l).toList = l := by
  induction l with
  | nil => rfl
  | cons x xs ih => cases x; simp [JFields.ofList, JFields.toList, ih]

/-- Key lookup in a decoded JSON object.  `json.loads` builds a Python dict,
so when a key is duplicated in the field list the *last* binding wins. -/
def lookupLast (fs : List (String × Json)) (k : String) : Option Json :=
  fs.foldl (fun acc p => if p.1 = k then some p.2 else acc) none

/-- `d.get(k, dflt)` on the field list of a decoded JSON object. -/
def getFieldD (fs : List (String × Json)) (k : String) (d : Json) : Json :=
  (lookupLast fs k).getD d

/-- `k in d` for a Python dict: key membership. -/
def hasKey (fs : List (String × Json)) (k : String) : Bool :=
  fs.any (fun p => p.1 = k)

/-- Python truthiness of a decoded JSON value (`if not x`). -/
def Json.truthy : Json → Bool
  | .null => false
  | .bool b => b
  | .num n => n != 0
  | .str s => !s.isEmpty
  | .arr xs => !xs.toList.isEmpty
  | .obj fs => !fs.toList.isEmpty

/-- Python `str()` of a decoded JSON value.  The dashboard's data paths only
ever stringify ints (port/pid list elements), so the `repr`-style rendering of
containers is abbreviated; no claim depends on it. -/
def pyStr : Json → String
  | .null => "None"
  | .bool b => if b then "True" else "False"
  | .num n => toString n
  | .str s => s
  | .arr _ => "[...]"
  | .obj _ => "\x7b...\x7d"

/-! ## Validation errors (`ValueError`s raised by `load_and_validate_json`) -/

/-- One constructor per `raise` site reachable from `load_and_validate_json`
(lines 163–200).  `typeError` stands for the `TypeError`s Python raises when
the decoded top level is not subscriptable/iterable; those are also caught by
the generic `except Exception` clause. -/
inductive VError where
  | emptyInput
  | malformedJson (lineno : Int) (msg : String)
  | missingFields (fields : List String)
  | invalidInstanceId
  | invalidInstanceName
  | applicationsNotList
  | emptyApplications
  | appNotObject (i : Nat)
  | appMissingName (i : Nat)
  | typeError (msg : String)
deriving DecidableEq

/-- `str(e)` of the exception originally raised inside the `try` body.
Index payloads are 0-based loop indices; the messages show `i + 1` exactly as
the f-strings at lines 192/194 do. -/
def VError.describe : VError → String
  | .emptyInput => "File is empty"
  | .malformedJson _ m => m
  | .missingFields fs => "Missing required fields: " ++ String.intercalate ", " fs
  | .invalidInstanceId => "'instance_id' must be a non-empty string"
  | .invalidInstanceName => "'instance_name' must be a non-empty string"
  | .applicationsNotList => "'applications' must be a list"
  | .emptyApplications => "'applications' list is empty"
  | .appNotObject i => "Application " ++ toString (i + 1) ++ " must be an object"
  | .appMissingName i => "Application " ++ toString (i + 1) ++ " missing 'name' field"
  | .typeError m => m

/-- The final `ValueError` message escaping `load_and_validate_json`:
a `json.JSONDecodeError` is re-raised by the first `except` clause (line 198)
without the generic prefix, every other exception is wrapped by the second
`except` clause (line 200). -/
def VError.render : VError → String
  | .malformedJson l m => "Invalid JSON format at line " ++ toString l ++ ": " ++ m
  | e => "Error processing file: " ++ e.describe

/-! ## Schema validation (`load_and_validate_json`, lines 150–200) -/

/-- Outcome of `json.loads` on the file's bytes.  The textual parser is not
modelled; a malformed file carries the decode error's `lineno` and `msg`. -/
inductive ParseOutcome where
  | malformed (lineno : Int) (msg : String)
  | decoded (j : Json)
deriving DecidableEq

/-- An uploaded file: its name, raw bytes, and what `json.loads` yields on
those bytes. -/
structure UploadedFile where
  name : String
  content : List Nat
  parse : ParseOutcome
deriving DecidableEq

def required_fields : List String := ["instance_id", "instance_name", "applications"]

/-- Python `field in data` for an arbitrary decoded value: key membership for
dicts, element membership for lists, substring test for strings, `TypeError`
for non-iterables. -/
def pyContains (data : Json) (field : String) : Except VError Bool :=
  match data with
  | .obj fs => .ok (hasKey fs.toList field)
  | .arr xs => .ok (xs.toList.any (fun x => x == .str field))
  | .str s => .ok (decide (2 ≤ (s.splitOn field).length))
  | .num _ => .error (.typeError "argument of type 'int' is not iterable")
  | .bool _ => .error (.typeError "argument of type 'bool' is not iterable")
  | .null => .error (.typeError "argument of type 'NoneType' is not iterable")

/-- Python `str.strip()` with no argument: drop leading and trailing
whitespace.  (Implemented on the character list so that it reduces inside the
kernel; `String.trim` does not.) -/
def pyStrip (s : String) : String :=
  ⟨((s.data.dropWhile Char.isWhitespace).reverse.dropWhile Char.isWhitespace).reverse⟩

/-- Python `data[k]` for a string key: only dicts succeed. -/
def pySubscript (data : Json) (k : String) : Except VError Json :=
  match data with
  | .obj fs =>
    match lookupLast fs.toList k with
    | some v => .ok v
    | none => .error (.typeError ("KeyError: '" ++ k ++ "'"))
  | .str _ => .error (.typeError "string indices must be integers")
  | .arr _ => .error (.typeError "list indices must be integers or slices, not str")
  | _ => .error (.typeError "object is not subscriptable")

/-- The list comprehension at line 172: membership tests run left to right and
the first `TypeError` aborts. -/
def filterExcept (p : String → Except VError Bool) : List String → Except VError (List String)
  | [] => .ok []
  | x :: xs =>
    match p x with
    | .error e => .error e
    | .ok b =>
      match filterExcept p xs with
      | .error e => .error e
      | .ok rest => .ok (if b then x :: rest else rest)

def notContains (data : Json) (k : String) : Except VError Bool :=
  match pyContains data k with
  | .error e => .error e
  | .ok b => .ok !b

/-- The per-entry loop at lines 190–194 (`enumerate` index `i` starts at 0). -/
def checkApplications : Nat → List Json → Except VError Unit
  | _, [] => .ok ()
  | i, app :: rest =>
    match app with
    | .obj fs =>
      if hasKey fs.toList "name" then checkApplications (i + 1) rest
      else .error (.appMissingName i)
    | _ => .error (.appNotObject i)

/-- Lines 183–196: the `applications` checks, returning the document. -/
def checkApplicationsField (data : Json) : Except VError Json :=
  match pySubscript data "applications" with
  | .error e => .error e
  | .ok (.arr xs) =>
    if xs.toList.length = 0 then .error .emptyApplications
    else
      match checkApplications 0 xs.toList with
      | .error e => .error e
      | .ok _ => .ok data
  | .ok _ => .error .applicationsNotList

/-- Lines 177–181: `instance_id`/`instance_name` must be non-empty strings
after `.strip()`. -/
def checkFieldTypes (data : Json) : Except VError Json :=
  match pySubscript data "instance_id" with
  | .error e => .error e
  | .ok (.str s) =>
    if pyStrip s = "" then .error .invalidInstanceId
    else
      match pySubscript data "instance_name" with
      | .error e => .error e
      | .ok (.str t) =>
        if pyStrip t = "" then .error .invalidInstanceName
        else checkApplicationsField data
      | .ok _ => .error .invalidInstanceName
  | .ok _ => .error .invalidInstanceId

/-- Body of the `try` block of `load_and_validate_json` (lines 163–196),
producing the structured error of the first failing check. -/
def validate_inner (f : UploadedFile) : Except VError Json :=
  if f.content.length = 0 then .error .emptyInput
  else
    match f.parse with
    | .malformed l m => .error (.malformedJson l m)
    | .decoded data =>
      match filterExcept (notContains data) required_fields with
      | .error e => .error e
      | .ok missing =>
        if missing.isEmpty then checkFieldTypes data
        else .error (.missingFields missing)

/-- `load_and_validate_json` (lines 150–200): returns the decoded document or
the message of the `ValueError` that escapes. -/
def load_and_validate_json (f : UploadedFile) : Except String Json :=
  match validate_inner f with
  | .ok d => .ok d
  | .error e => .error e.render

/-! ## Flat application records (`process_instance_data`, lines 227–242) -/

/-- One row of the flattened table.  Fields hold the decoded Python values the
dict literal at lines 229–241 stores; `ports`/`pids` are the comma-joined
strings produced there. -/
structure AppRecord where
  instance_id : Json
  instance_name : Json
  script_version : Json
  app_name : Json
  app_type : Json
  app_status : Json
  app_image : Json
  ports : String
  pids : String
  process_name : Json
  container_id : Json
deriving DecidableEq

/-- `', '.join(map(str, x))` (lines 237–238).  Iterating a string yields its
characters and iterating a dict yields its keys; non-iterables raise
`TypeError`, which the per-file `except` clause catches. -/
def pyJoinStr (x : Json) : Except String String :=
  match x with
  | .arr xs => .ok (String.intercalate ", " (xs.toList.map pyStr))
  | .str s => .ok (String.intercalate ", " (s.data.map (fun c => String.singleton c)))
  | .obj fs => .ok (String.intercalate ", " (fs.toList.map (fun p => p.1)))
  | .num _ => .error "'int' object is not iterable"
  | .bool _ => .error "'bool' object is not iterable"
  | .null => .error "'NoneType' object is not iterable"

/-- `x.get(k, d)`: only dicts have `.get`; anything else raises
`AttributeError`. -/
def pyGetD (x : Json) (k : String) (d : Json) : Except String Json :=
  match x with
  | .obj fs => .ok (getFieldD fs.toList k d)
  | _ => .error "object has no attribute 'get'"

/-- The dict literal at lines 229–241 for one application entry. -/
def extract_record (iid iname sver : Json) (app : Json) : Except String AppRecord :=
  match app with
  | .obj fs =>
    match pyJoinStr (getFieldD fs.toList "ports" (.arr .nil)) with
    | .error e => .error e
    | .ok portsStr =>
      match pyJoinStr (getFieldD fs.toList "pids" (.arr .nil)) with
      | .error e => .error e
      | .ok pidsStr =>
        .ok { instance_id := iid
              instance_name := iname
              script_version := sver
              app_name := getFieldD fs.toList "name" (.str "Unknown")
              app_type := getFieldD fs.toList "type" (.str "Unknown")
              app_status := getFieldD fs.toList "status" (.str "Unknown")
              app_image := getFieldD fs.toList "image" (.str "")
              ports := portsStr
              pids := pidsStr
              process_name := getFieldD fs.toList "process_name" (.str "")
              container_id := getFieldD fs.toList "container_id" (.str "") }
  | _ => .error "object has no attribute 'get'"

def mapExcept (f : Json → Except String AppRecord) : List Json → Except String (List AppRecord)
  | [] => .ok []
  | x :: xs =>
    match f x with
    | .error e => .error e
    | .ok y =>
      match mapExcept f xs with
      | .error e => .error e
      | .ok ys => .ok (y :: ys)

/-- Record extraction for one validated document (lines 213–242): read the
instance fields with defaults, then flatten each application entry in order.
When `applications` is not a list the Python loop fails on the first entry
(`.get` on a non-dict, or a non-iterable); the exact message differs by shape
but every such shape errors, which is all the per-file handler observes. -/
def extract (data : Json) : Except String (List AppRecord) :=
  match data with
  | .obj fs =>
    let instance_id := getFieldD fs.toList "instance_id" (.str "Unknown")
    let instance_name := getFieldD fs.toList "instance_name" (.str "Unknown")
    let script_version := getFieldD fs.toList "script_version" (.str "Unknown")
    match getFieldD fs.toList "applications" (.arr .nil) with
    | .arr apps => mapExcept (extract_record instance_id instance_name script_version) apps.toList
    | _ => .error "'applications' value does not iterate as a list of dicts"
  | _ => .error "object has no attribute 'get'"

/-! ## Dataset aggregation (`process_instance_data`, lines 202–258) -/

/-- A pandas DataFrame, reduced to what the dashboard observes: the column
names and the row list.  `pd.DataFrame()` (no successful file) has no
columns. -/
structure DataFrame where
  columns : List String
  rows : List AppRecord
deriving DecidableEq

/-- Column names of every per-file DataFrame built from the dict literal at
lines 229–241, hence of any non-empty concatenation. -/
def record_columns : List String :=
  ["instance_id", "instance_name", "script_version", "app_name", "app_type",
   "app_status", "app_image", "ports", "pids", "process_name", "container_id"]

/-- Loop body of `process_instance_data` for one file (lines 209–252): the
records the file contributes, or the message recorded for it.  The
empty-`applications` branch at lines 221–225 appends its full message
directly; it is reproduced here without the file-name prefix, which
`process_step` adds uniformly, yielding the identical logged string. -/
def process_one (f : UploadedFile) : Except String (List AppRecord) :=
  match load_and_validate_json f with
  | .error m => .error m
  | .ok data =>
    match pyGetD data "applications" (.arr .nil) with
    | .error m => .error m
    | .ok apps =>
      if apps.truthy then
        match extract data with
        | .error m => .error m
        | .ok recs => .ok recs
      else .error "Error processing file: 'applications' list is empty"

/-- One iteration of the `for uploaded_file in uploaded_files` loop:
a failure appends one message to `st.session_state.processing_errors`
(lines 222–224 and 249–251), a success appends the file's DataFrame
(line 246) when it has rows (line 244). -/
def process_step (acc : List (List AppRecord) × List String) (f : UploadedFile) :
    List (List AppRecord) × List String :=
  match process_one f with
  | .error m => (acc.1, acc.2 ++ ["Error processing " ++ f.name ++ ": " ++ m])
  | .ok recs => if recs.isEmpty then acc else (acc.1 ++ [recs], acc.2)

/-- `process_instance_data` (lines 202–258) together with the error messages
it appended: `pd.concat` of the per-file frames (line 256) or the empty
`pd.DataFrame()` (line 258). -/
def process_instance_data (files : List UploadedFile) : DataFrame × List String :=
  let r := files.foldl process_step ([], [])
  (if r.1.isEmpty then { columns := [], rows := [] }
   else { columns := record_columns, rows := r.1.flatten }, r.2)

/-! ## Summary metrics (`create_summary_metrics`, lines 260–282) -/

/-- pandas `Series.nunique()`: the number of distinct non-null values. -/
def nunique (xs : List Json) : Nat :=
  ((xs.filter (fun x => x != Json.null)).dedup).length

/-- Nearest integer to a rational, ties to even: the rounding used both by
IEEE-754 round-to-nearest and by correct decimal rounding. -/
def rheQ (q : ℚ) : ℤ :=
  if q - (⌊q⌋ : ℚ) < 1 / 2 then ⌊q⌋
  else if 1 / 2 < q - (⌊q⌋ : ℚ) then ⌊q⌋ + 1
  else if ⌊q⌋ % 2 = 0 then ⌊q⌋ else ⌊q⌋ + 1

/-- The integer `10 * q` rounds to (ties to even): `q` rounded to one
decimal place on the exact rational, in tenths.  This is the spec reading of
"rounded to one decimal place"; the program instead rounds the binary64
double, see `pyRoundFloat1`. -/
def pyRoundTenths (q : ℚ) : ℤ := rheQ (10 * q)

/-- The spec words "total / instances, rounded to one decimal place" applied
to the exact rational: the comparator claim C6 is judged against. -/
def pyRound1 (q : ℚ) : ℚ := (pyRoundTenths q : ℚ) / 10

/-- The IEEE-754 binary64 value nearest a nonnegative rational: round to 53
significant bits, ties to even (`Int.log 2 q` is the floor base-2 logarithm,
so the mantissa `q * 2 ^ (52 - e)` lies in `[2^52, 2^53)`).  The exponent
range is unbounded: subnormal underflow (below 2^-1022) and overflow to
infinity (above ~2^1024) cannot be reached by quotients of realistic row and
instance counts and are not modelled. -/
def floatOfRat (q : ℚ) : ℚ :=
  if q ≤ 0 then 0
  else (rheQ (q * 2 ^ (52 - Int.log 2 q)) : ℚ) * 2 ^ (Int.log 2 q - 52)

/-- Python `a / b` on ints: the correctly rounded double of the exact
quotient. -/
def pyDivFloat (a b : ℕ) : ℚ := floatOfRat ((a : ℚ) / (b : ℚ))

/-- CPython `round(x, 1)` on a (nonnegative) double `x`: round the exact
value of `x` to the nearest tenth — ties to even, though a binary double is
never an exact multiple of 1/20 that is not a multiple of 1/10, so no tie
can occur — and return the double nearest the resulting decimal. -/
def pyRoundFloat1 (x : ℚ) : ℚ := floatOfRat ((pyRoundTenths x : ℚ) / 10)

/-- The dict returned by `create_summary_metrics` (lines 276–282).  The
`all_ports` local (lines 270–274) is computed and never used; the
`app_types` value-counts entry is consumed only by chart code and is not
modelled. -/
structure SummaryMetrics where
  total_instances : Nat
  total_applications : Nat
  unique_app_types : Nat
  avg_apps_per_instance : ℚ
deriving DecidableEq

def create_summary_metrics (rows : List AppRecord) : SummaryMetrics :=
  let ids := rows.map (fun r => r.instance_id)
  { total_instances := nunique ids
    total_applications := rows.length
    unique_app_types := nunique (rows.map (fun r => r.app_type))
    avg_apps_per_instance :=
      if 0 < nunique ids then pyRoundFloat1 (pyDivFloat rows.length (nunique ids))
      else 0 }

/-! ## Navigation and filter state (session state, lines 25–31, 119–124,
369–373, 780–817, 1053–1096) -/

/-- `st.session_state.selected_filter`: either the empty dict or a
`{'type': ..., 'value': ...}` dict. -/
inductive SelectedFilter where
  | empty
  | entries (ftype : String) (value : Json)
deriving DecidableEq

/-- The session state the handlers mutate: `current_page`,
`selected_filter`, `processing_errors`, and `processed_data` (absent before
the first successful upload). -/
structure AppState where
  current_page : String
  selected_filter : SelectedFilter
  processing_errors : List String
  processed_data : Option DataFrame
deriving DecidableEq

/-- Pie-chart segment selection on the Overview page (lines 369–373): the
selection label is an `app_type` value rendered as a string. -/
def select_app_type (s : AppState) (label : String) : AppState :=
  { s with current_page := "filtered_view"
           selected_filter := .entries "app_type" (.str label) }

/-- The filtering logic of `create_filtered_view_page` (lines 792–817):
which rows the page displays for the active filter.  pandas `==` between a
column and a scalar keeps exactly the rows whose cell equals the scalar. -/
def filtered_view_rows (df : DataFrame) (filt : SelectedFilter) : List AppRecord :=
  match filt with
  | .empty => df.rows
  | .entries t v =>
    if t = "app_type" then df.rows.filter (fun r => r.app_type == v)
    else if t = "instance" then df.rows.filter (fun r => r.instance_name == v)
    else if t = "app_status" then
      if df.columns.contains "app_status" then
        df.rows.filter (fun r => r.app_status == v)
      else df.rows
    else df.rows

/-- The upload handler in `main` (lines 1077–1096).  `if uploaded_files:`
skips everything for an empty batch; otherwise the error log is cleared
(line 1082) before processing, and the dataset is replaced only when the
combined DataFrame has rows.  The second component records whether the
batch-level `st.error` banner (line 1096) was shown. -/
def handle_upload (s : AppState) (files : List UploadedFile) : AppState × Bool :=
  if files.isEmpty then (s, false)
  else
    let cleared := { s with processing_errors := [] }
    let r := process_instance_data files
    let s2 := { cleared with processing_errors := r.2 }
    if r.1.rows.isEmpty then (s2, true)
    else ({ s2 with processed_data := some r.1 }, false)

/-! ## Busiest instance (`create_application_overview_page`, line 341) -/

/-- Code-point lexicographic comparison of strings, the order Python and
pandas use when sorting `str` keys. -/
def lexLe : List Char → List Char → Bool
  | [], _ => true
  | _ :: _, [] => false
  | a :: as, b :: bs =>
    if a.toNat < b.toNat then true
    else if b.toNat < a.toNat then false
    else lexLe as bs

def strLe (a b : String) : Bool := lexLe a.data b.data

def insertSorted (a : String) : List String → List String
  | [] => [a]
  | b :: bs => if strLe a b then a :: b :: bs else b :: insertSorted a bs

/-- Ascending sort by code-point order (insertion sort). -/
def sortKeys (l : List String) : List String := l.foldr insertSorted []

/-- The distinct values of a list, keeping the first occurrence of each;
`seen` accumulates the values already emitted. -/
def firstOccurrencesAux (seen : List String) : List String → List String
  | [] => []
  | x :: xs =>
    if seen.contains x then firstOccurrencesAux seen xs
    else x :: firstOccurrencesAux (x :: seen) xs

/-- The distinct values of a list, keeping the first occurrence of each. -/
def firstOccurrences (l : List String) : List String := firstOccurrencesAux [] l

/-- `Series.idxmax` scan: the first index of the running maximum wins. -/
def idxmaxGo (f : String → Nat) (best : String) : List String → String
  | [] => best
  | y :: ys => if f best < f y then idxmaxGo f y ys else idxmaxGo f best ys

/-- `df.groupby('instance_name').size().idxmax()` (line 341) on the list of
`instance_name` cells: `groupby` (with its default `sort=True`) indexes the
size Series by the distinct names in ascending order, and `idxmax` returns
the first index attaining the maximal count. -/
def busiest_instance (names : List String) : Option String :=
  match sortKeys (firstOccurrences names) with
  | [] => none
  | x :: xs => some (idxmaxGo (fun k => names.count k) x xs)

/-- The tie rule claimed by the spec, stated from its words: among the names
with the greatest count, the one whose first record appears earliest in
dataset order. -/
def busiest_first_encountered (names : List String) : Option String :=
  match firstOccurrences names with
  | [] => none
  | x :: xs => some (idxmaxGo (fun k => names.count k) x xs)

/-! ## Spec-side data model (spec sections 3 and 4.2) -/

/-- An application entry as the spec's data model types it: `name` required,
the other fields optional, `ports`/`pids` integer sequences. -/
structure ApplicationEntry where
  name : String
  type : Option String
  status : Option String
  image : Option String
  ports : Option (List Int)
  pids : Option (List Int)
  process_name : Option String
  container_id : Option String
deriving DecidableEq

/-- An instance document as the spec's data model types it. -/
structure InstanceDocument where
  instance_id : String
  instance_name : String
  script_version : Option String
  applications : List ApplicationEntry
deriving DecidableEq

def optStrField (k : String) : Option String → List (String × Json)
  | none => []
  | some s => [(k, .str s)]

def optIntListField (k : String) : Option (List Int) → List (String × Json)
  | none => []
  | some l => [(k, .arr (JList.ofList (l.map Json.num)))]

/-- The JSON object a well-typed application entry decodes to: present fields
in a fixed order, absent optional fields omitted. -/
def ApplicationEntry.fieldList (e : ApplicationEntry) : List (String × Json) :=
  [("name", Json.str e.name)] ++ optStrField "type" e.type ++
  optStrField "status" e.status ++ optStrField "image" e.image ++
  optIntListField "ports" e.ports ++ optIntListField "pids" e.pids ++
  optStrField "process_name" e.process_name ++
  optStrField "container_id" e.container_id

def ApplicationEntry.toJson (e : ApplicationEntry) : Json :=
  .obj (JFields.ofList e.fieldList)

def InstanceDocument.fieldList (D : InstanceDocument) : List (String × Json) :=
  [("instance_id", Json.str D.instance_id),
   ("instance_name", Json.str D.instance_name)] ++
  optStrField "script_version" D.script_version ++
  [("applications", Json.arr (JList.ofList (D.applications.map ApplicationEntry.toJson)))]

def InstanceDocument.toJson (D : InstanceDocument) : Json :=
  .obj (JFields.ofList D.fieldList)

/-- Validity of a document per the spec's data model: non-empty
`instance_id`/`instance_name` (the validator trims before testing) and a
non-empty `applications` sequence. -/
def InstanceDocument.Valid (D : InstanceDocument) : Prop :=
  pyStrip D.instance_id ≠ "" ∧ pyStrip D.instance_name ≠ "" ∧ D.applications ≠ []

instance (D : InstanceDocument) : Decidable D.Valid := by
  unfold InstanceDocument.Valid; infer_instance

/-- The flat record the spec's section 4.2 prescribes for one entry of a
document: parent fields copied, defaults applied, ports/pids comma-joined. -/
def record_of_entry (D : InstanceDocument) (e : ApplicationEntry) : AppRecord :=
  { instance_id := .str D.instance_id
    instance_name := .str D.instance_name
    script_version := .str (D.script_version.getD "Unknown")
    app_name := .str e.name
    app_type := .str (e.type.getD "Unknown")
    app_status := .str (e.status.getD "Unknown")
    app_image := .str (e.image.getD "")
    ports := String.intercalate ", " ((e.ports.getD []).map (fun n => toString n))
    pids := String.intercalate ", " ((e.pids.getD []).map (fun n => toString n))
    process_name := .str (e.process_name.getD "")
    container_id := .str (e.container_id.getD "") }

/-! ## Helper lemmas -/

lemma filterExcept_ok (p : String → Except VError Bool) (q : String → Bool)
    (hp : ∀ k, p k = .ok (q k)) :
    ∀ l : List String, filterExcept p l = .ok (l.filter q) := by
  intro l
  induction l with
  | nil => rfl
  | cons x xs ih =>
    unfold filterExcept
    rw [hp x, ih, List.filter_cons]

/-! ## Claim C8: empty input -/

/-- Claim C8 (confirmed): a zero-length byte buffer fails validation with the
EmptyInput error (`ValueError("File is empty")`, surfaced through the generic
wrapper as "Error processing file: File is empty") for every possible parser
outcome — the length check at line 165 precedes `json.loads`, so no JSON
parsing or field inspection is attempted. -/
theorem C8_empty_input (f : UploadedFile) (h : f.content = []) :
    validate_inner f = .error .emptyInput ∧
    load_and_validate_json f = .error "Error processing file: File is empty" := by
  have h1 : validate_inner f = .error .emptyInput := by
    unfold validate_inner
    rw [h]
    rfl
  refine ⟨h1, ?_⟩
  unfold load_and_validate_json
  rw [h1]
  rfl

theorem C8_empty_input_witness :
    validate_inner ⟨"f.json", [], .decoded .null⟩ = .error .emptyInput ∧
    load_and_validate_json ⟨"f.json", [], .decoded .null⟩ =
      .error "Error processing file: File is empty" :=
  C8_empty_input ⟨"f.json", [], .decoded .null⟩ rfl

/-! ## Claim C3: missing required fields -/

/-- Claim C3 (refuted): on the empty JSON object, which is missing all three
required fields, the validator reports ALL missing fields joined with ", "
(line 174), not only the first one in the fixed order. -/
theorem C3_counterexample :
    validate_inner ⟨"f.json", [1], .decoded (.obj .nil)⟩ =
      .error (.missingFields ["instance_id", "instance_name", "applications"]) ∧
    load_and_validate_json ⟨"f.json", [1], .decoded (.obj .nil)⟩ =
      .error "Error processing file: Missing required fields: instance_id, instance_name, applications" ∧
    (["instance_id", "instance_name", "applications"] : List String) ≠ ["instance_id"] ∧
    "Error processing file: Missing required fields: instance_id, instance_name, applications" ≠
      "Error processing file: Missing required fields: instance_id" := by
  decide

/-- Claim C3 (amended): for every JSON object missing at least one of the
top-level fields, validation fails with a MissingField error naming ALL the
missing fields, comma-joined, in the fixed order instance_id, instance_name,
applications. -/
theorem C3_missing_fields_all (f : UploadedFile) (kvs : JFields)
    (hc : f.content ≠ [])
    (hp : f.parse = .decoded (.obj kvs))
    (hm : required_fields.filter (fun k => !(hasKey kvs.toList k)) ≠ []) :
    validate_inner f =
      .error (.missingFields (required_fields.filter (fun k => !(hasKey kvs.toList k)))) ∧
    load_and_validate_json f =
      .error ("Error processing file: Missing required fields: " ++
        String.intercalate ", " (required_fields.filter (fun k => !(hasKey kvs.toList k)))) := by
  have hlen : ¬ f.content.length = 0 := by
    simpa [List.length_eq_zero] using hc
  have hfe : filterExcept (notContains (.obj kvs)) required_fields =
      .ok (required_fields.filter (fun k => !(hasKey kvs.toList k))) :=
    filterExcept_ok _ _ (fun _ => rfl) _
  have hie : (required_fields.filter (fun k => !(hasKey kvs.toList k))).isEmpty = false := by
    cases hl : required_fields.filter (fun k => !(hasKey kvs.toList k)) with
    | nil => exact absurd hl hm
    | cons a l => rfl
  have h1 : validate_inner f =
      .error (.missingFields (required_fields.filter (fun k => !(hasKey kvs.toList k)))) := by
    unfold validate_inner
    rw [if_neg hlen, hp]
    simp only [hfe, hie]
    rfl
  refine ⟨h1, ?_⟩
  unfold load_and_validate_json
  rw [h1]
  rfl

theorem C3_missing_fields_all_witness :
    validate_inner ⟨"f.json", [1], .decoded (.obj (.cons "instance_id" (.str "i-1") .nil))⟩ =
      .error (.missingFields (required_fields.filter (fun k =>
        !(hasKey (JFields.cons "instance_id" (.str "i-1") .nil).toList k)))) ∧
    load_and_validate_json ⟨"f.json", [1], .decoded (.obj (.cons "instance_id" (.str "i-1") .nil))⟩ =
      .error ("Error processing file: Missing required fields: " ++
        String.intercalate ", " (required_fields.filter (fun k =>
          !(hasKey (JFields.cons "instance_id" (.str "i-1") .nil).toList k)))) :=
  C3_missing_fields_all ⟨"f.json", [1], .decoded (.obj (.cons "instance_id" (.str "i-1") .nil))⟩
    (.cons "instance_id" (.str "i-1") .nil) (by decide) rfl (by decide)

/-! ## Claim C10: error message formats -/

/-- Claim C10 (confirmed): every structural validation failure is surfaced as
the underlying description prefixed with "Error processing file: " (the
generic `except Exception` wrapper, line 200), while a malformed-JSON failure
is surfaced unprefixed as "Invalid JSON format at line ..." (line 198); the
aggregator then prepends "Error processing <file name>: " to whichever
message it records (lines 249–251). -/
theorem C10_error_message_format (f : UploadedFile) (e : VError)
    (h : validate_inner f = .error e) :
    load_and_validate_json f = .error e.render ∧
    (∀ l m, e = .malformedJson l m →
      e.render = "Invalid JSON format at line " ++ toString l ++ ": " ++ m) ∧
    ((∀ l m, e ≠ .malformedJson l m) →
      e.render = "Error processing file: " ++ e.describe) ∧
    (process_instance_data [f]).2 = ["Error processing " ++ f.name ++ ": " ++ e.render] := by
  have h1 : load_and_validate_json f = .error e.render := by
    unfold load_and_validate_json
    rw [h]
  have h2 : process_one f = .error e.render := by
    unfold process_one
    rw [h1]
  refine ⟨h1, ?_, ?_, ?_⟩
  · rintro l m rfl
    rfl
  · intro hne
    cases e <;> first | rfl | exact absurd rfl (hne _ _)
  · unfold process_instance_data
    simp [List.foldl, process_step, h2]

theorem C10_error_message_format_witness :
    load_and_validate_json ⟨"f.json", [1], .decoded (.obj .nil)⟩ =
      .error (VError.missingFields ["instance_id", "instance_name", "applications"]).render ∧
    (∀ l m, VError.missingFields ["instance_id", "instance_name", "applications"] =
        .malformedJson l m →
      (VError.missingFields ["instance_id", "instance_name", "applications"]).render =
        "Invalid JSON format at line " ++ toString l ++ ": " ++ m) ∧
    ((∀ l m, VError.missingFields ["instance_id", "instance_name", "applications"] ≠
        .malformedJson l m) →
      (VError.missingFields ["instance_id", "instance_name", "applications"]).render =
        "Error processing file: " ++
          (VError.missingFields ["instance_id", "instance_name", "applications"]).describe) ∧
    (process_instance_data [⟨"f.json", [1], .decoded (.obj .nil)⟩]).2 =
      ["Error processing " ++ "f.json" ++ ": " ++
        (VError.missingFields ["instance_id", "instance_name", "applications"]).render] :=
  C10_error_message_format ⟨"f.json", [1], .decoded (.obj .nil)⟩
    (.missingFields ["instance_id", "instance_name", "applications"]) (by decide)

/-! ## Claim C4: failed or empty upload batch -/

/-- Claim C4 (refuted in its error-log part): the upload handler clears
`st.session_state.processing_errors` (line 1082) before processing, so after
a failed batch the log holds only the batch's errors — the pre-existing entry
"old entry" is gone rather than retained. -/
theorem C4_counterexample :
    (handle_upload
        { current_page := "overview", selected_filter := .empty,
          processing_errors := ["old entry"], processed_data := none }
        [⟨"f.json", [], .decoded .null⟩]).1.processing_errors =
      ["Error processing f.json: Error processing file: File is empty"] ∧
    "old entry" ∉
      (handle_upload
        { current_page := "overview", selected_filter := .empty,
          processing_errors := ["old entry"], processed_data := none }
        [⟨"f.json", [], .decoded .null⟩]).1.processing_errors := by
  decide

/-- Claim C4 (amended): for every non-empty upload batch from which zero
records are extracted, the prior dataset, current view and active filter are
left unchanged and a batch-level error is surfaced; the error log is REPLACED
by the batch's per-file errors (the handler clears it at the start of each
upload, so prior entries are discarded). -/
theorem C4_empty_batch (s : AppState) (files : List UploadedFile)
    (hne : files ≠ [])
    (h : (process_instance_data files).1.rows = []) :
    (handle_upload s files).1.processed_data = s.processed_data ∧
    (handle_upload s files).1.current_page = s.current_page ∧
    (handle_upload s files).1.selected_filter = s.selected_filter ∧
    (handle_upload s files).2 = true ∧
    (handle_upload s files).1.processing_errors = (process_instance_data files).2 := by
  have hfe : files.isEmpty = false := by
    cases files with
    | nil => exact absurd rfl hne
    | cons a l => rfl
  have hre : (process_instance_data files).1.rows.isEmpty = true := by
    rw [h]
    rfl
  unfold handle_upload
  simp [hfe, hre]

theorem C4_empty_batch_witness :
    (handle_upload
        { current_page := "overview", selected_filter := .empty,
          processing_errors := ["old entry"], processed_data := none }
        [⟨"f.json", [], .decoded .null⟩]).1.processed_data = none ∧
    (handle_upload
        { current_page := "overview", selected_filter := .empty,
          processing_errors := ["old entry"], processed_data := none }
        [⟨"f.json", [], .decoded .null⟩]).1.current_page = "overview" ∧
    (handle_upload
        { current_page := "overview", selected_filter := .empty,
          processing_errors := ["old entry"], processed_data := none }
        [⟨"f.json", [], .decoded .null⟩]).1.selected_filter = .empty ∧
    (handle_upload
        { current_page := "overview", selected_filter := .empty,
          processing_errors := ["old entry"], processed_data := none }
        [⟨"f.json", [], .decoded .null⟩]).2 = true ∧
    (handle_upload
        { current_page := "overview", selected_filter := .empty,
          processing_errors := ["old entry"], processed_data := none }
        [⟨"f.json", [], .decoded .null⟩]).1.processing_errors =
      (process_instance_data [⟨"f.json", [], .decoded .null⟩]).2 :=
  C4_empty_batch
    { current_page := "overview", selected_filter := .empty,
      processing_errors := ["old entry"], processed_data := none }
    [⟨"f.json", [], .decoded .null⟩] (by decide) (by decide)

/-! ## Claim C5: per-file independence of the aggregator -/

lemma process_foldl (files : List UploadedFile) :
    ∀ acc : List (List AppRecord) × List String,
      files.foldl process_step acc =
        (acc.1 ++ files.filterMap (fun f =>
            match process_one f with
            | .ok recs => if recs.isEmpty then none else some recs
            | .error _ => none),
         acc.2 ++ files.filterMap (fun f =>
            match process_one f with
            | .error m => some ("Error processing " ++ f.name ++ ": " ++ m)
            | .ok _ => none)) := by
  induction files with
  | nil => intro acc; simp
  | cons f fs ih =>
    intro acc
    rw [List.foldl_cons, ih, List.filterMap_cons, List.filterMap_cons]
    unfold process_step
    cases hf : process_one f with
    | error m => simp
    | ok recs =>
      cases recs with
      | nil => simp
      | cons a l => simp

lemma flatten_filterMap_eq (files : List UploadedFile) :
    (files.filterMap (fun f =>
        match process_one f with
        | .ok recs => if recs.isEmpty then none else some recs
        | .error _ => none)).flatten =
      (files.filterMap (fun f => (process_one f).toOption)).flatten := by
  induction files with
  | nil => rfl
  | cons f fs ih =>
    rw [List.filterMap_cons, List.filterMap_cons]
    cases hf : process_one f with
    | error m => simpa using ih
    | ok recs =>
      cases recs with
      | nil => simpa [Except.toOption] using ih
      | cons a l => simpa [Except.toOption] using ih

lemma process_rows_eq_flatten (files : List UploadedFile) :
    (process_instance_data files).1.rows =
      (files.foldl process_step ([], [])).1.flatten := by
  unfold process_instance_data
  cases hd : (files.foldl process_step ([], [])).1.isEmpty with
  | true =>
    have : (files.foldl process_step ([], [])).1 = [] := by
      cases he : (files.foldl process_step ([], [])).1 with
      | nil => rfl
      | cons a l => rw [he] at hd; exact absurd hd (by simp)
    simp [hd, this]
  | false => simp [hd]

/-- Claim C5 (confirmed): each file of a batch is validated and extracted
independently; a failing file contributes exactly one logged message built
from its own name and its failure's description, a succeeding file
contributes nothing to the log, and the combined rows are the concatenation
of the successfully extracted per-file record lists in file-upload order
(each per-file list preserving its own order). -/
theorem C5_per_file_independence (files : List UploadedFile) :
    (process_instance_data files).2 =
      files.filterMap (fun f =>
        match process_one f with
        | .error m => some ("Error processing " ++ f.name ++ ": " ++ m)
        | .ok _ => none) ∧
    (process_instance_data files).1.rows =
      (files.filterMap (fun f => (process_one f).toOption)).flatten := by
  constructor
  · show (files.foldl process_step ([], [])).2 = _
    rw [process_foldl]
    simp
  · rw [process_rows_eq_flatten, process_foldl]
    simpa using flatten_filterMap_eq files

/-! ## Claim C7: app-type selection and filter resolution -/

/-- Claim C7 (confirmed): selecting an app type from the Overview pie chart
sets `current_page` to the filtered view and the active filter to
`{'type': 'app_type', 'value': v}`; resolving that filter keeps exactly the
records whose `app_type` cell equals the string `v` (case-sensitive equality
of decoded values), as a sublist of the dataset (original order). -/
theorem C7_select_app_type (s : AppState) (v : String) (df : DataFrame) :
    (select_app_type s v).current_page = "filtered_view" ∧
    (select_app_type s v).selected_filter = .entries "app_type" (.str v) ∧
    filtered_view_rows df (select_app_type s v).selected_filter =
      df.rows.filter (fun r => r.app_type == Json.str v) ∧
    (∀ r, r ∈ filtered_view_rows df (select_app_type s v).selected_filter ↔
      (r ∈ df.rows ∧ r.app_type = Json.str v)) ∧
    (filtered_view_rows df (select_app_type s v).selected_filter).Sublist df.rows := by
  refine ⟨rfl, rfl, rfl, ?_, ?_⟩
  · intro r
    show r ∈ df.rows.filter (fun r => r.app_type == Json.str v) ↔ _
    rw [List.mem_filter]
    simp
  · exact List.filter_sublist df.rows

/-! ## Sample inputs used by witnesses -/

/-- A well-formed single-application document, as decoded JSON. -/
def sampleDoc : Json :=
  .obj (.cons "instance_id" (.str "i-1") (.cons "instance_name" (.str "host-a")
    (.cons "applications" (.arr (.cons
      (.obj (.cons "name" (.str "nginx") (.cons "type" (.str "docker")
        (.cons "status" (.str "running")
        (.cons "ports" (.arr (.cons (.num 80) (.cons (.num 443) .nil))) .nil)))))
      .nil)) .nil)))

def sampleFile : UploadedFile := ⟨"a.json", [1, 2], .decoded sampleDoc⟩

/-- The record `sampleFile` extracts to. -/
def sampleRecord : AppRecord :=
  { instance_id := .str "i-1", instance_name := .str "host-a",
    script_version := .str "Unknown", app_name := .str "nginx",
    app_type := .str "docker", app_status := .str "running",
    app_image := .str "", ports := "80, 443", pids := "",
    process_name := .str "", container_id := .str "" }

/-! ## Claim C9: the app_status column always exists -/

/-- Claim C9 (confirmed): every dataset the pipeline itself produces with at
least one row carries the `app_status` column (every per-file frame is built
from the dict literal at lines 229–241, whose keys include `app_status`, with
"Unknown" as the default value), so the `create_filtered_view_page` fallback
branch for a dataset without a status column (lines 808–810) is not taken:
the status filter always resolves by filtering. -/
theorem C9_status_column (files : List UploadedFile) (v : Json)
    (h : (process_instance_data files).1.rows ≠ []) :
    "app_status" ∈ (process_instance_data files).1.columns ∧
    filtered_view_rows (process_instance_data files).1 (.entries "app_status" v) =
      (process_instance_data files).1.rows.filter (fun r => r.app_status == v) := by
  have hcols : (process_instance_data files).1.columns = record_columns := by
    unfold process_instance_data at h ⊢
    cases hd : (files.foldl process_step ([], [])).1.isEmpty with
    | true => simp [hd] at h
    | false => simp [hd]
  have hc2 : record_columns.contains "app_status" = true := by decide
  constructor
  · rw [hcols]
    decide
  · unfold filtered_view_rows
    rw [hcols]
    have hmem : "app_status" ∈ record_columns := by decide
    simp [hc2, hmem]

theorem C9_status_column_witness :
    "app_status" ∈ (process_instance_data [sampleFile]).1.columns ∧
    filtered_view_rows (process_instance_data [sampleFile]).1
        (.entries "app_status" (.str "running")) =
      (process_instance_data [sampleFile]).1.rows.filter
        (fun r => r.app_status == Json.str "running") :=
  C9_status_column [sampleFile] (.str "running") (by decide)

/-! ## Claim C6: summary metrics -/

lemma rheQ_eq_down (q : ℚ) (n : ℤ) (h1 : (n : ℚ) ≤ q) (h2 : q < (n : ℚ) + 1 / 2) :
    rheQ q = n := by
  have hf : ⌊q⌋ = n := Int.floor_eq_iff.mpr ⟨h1, by linarith⟩
  unfold rheQ
  rw [hf, if_pos (by linarith)]

lemma rheQ_eq_up (q : ℚ) (n : ℤ) (h1 : (n : ℚ) + 1 / 2 < q) (h2 : q < (n : ℚ) + 1) :
    rheQ q = n + 1 := by
  have hf : ⌊q⌋ = n := Int.floor_eq_iff.mpr ⟨by linarith, h2⟩
  unfold rheQ
  rw [hf, if_neg (by linarith), if_pos (by linarith)]

lemma int_log2_eq (q : ℚ) (e : ℤ) (h0 : 0 < q)
    (h1 : (2 : ℚ) ^ e ≤ q) (h2 : q < (2 : ℚ) ^ (e + 1)) : Int.log 2 q = e := by
  have ha : (2 : ℚ) ^ Int.log 2 q ≤ q := Int.zpow_log_le_self (by norm_num) h0
  have hb : q < (2 : ℚ) ^ (Int.log 2 q + 1) := Int.lt_zpow_succ_log_self (by norm_num) q
  by_contra hne
  rcases lt_or_gt_of_ne hne with h | h
  · have hle : (2 : ℚ) ^ (Int.log 2 q + 1) ≤ 2 ^ e := by
      apply zpow_le_zpow_right₀ (by norm_num) (by omega)
    linarith
  · have hle : (2 : ℚ) ^ (e + 1) ≤ 2 ^ Int.log 2 q := by
      apply zpow_le_zpow_right₀ (by norm_num) (by omega)
    linarith

lemma floatOfRat_23_20 :
    floatOfRat (23 / 20) = 5179139571476070 / 4503599627370496 := by
  have hq : ¬ (23 / 20 : ℚ) ≤ 0 := by norm_num
  have hlog : Int.log 2 (23 / 20 : ℚ) = 0 :=
    int_log2_eq _ 0 (by norm_num) (by norm_num) (by norm_num)
  have hm : rheQ ((23 / 20 : ℚ) * 2 ^ ((52 : ℤ) - Int.log 2 (23 / 20 : ℚ))) =
      5179139571476070 := by
    rw [hlog]
    exact rheQ_eq_down _ _ (by norm_num) (by norm_num)
  unfold floatOfRat
  rw [if_neg hq, hm, hlog]
  norm_num

lemma floatOfRat_11_10 :
    floatOfRat (11 / 10) = 4953959590107546 / 4503599627370496 := by
  have hq : ¬ (11 / 10 : ℚ) ≤ 0 := by norm_num
  have hlog : Int.log 2 (11 / 10 : ℚ) = 0 :=
    int_log2_eq _ 0 (by norm_num) (by norm_num) (by norm_num)
  have hm : rheQ ((11 / 10 : ℚ) * 2 ^ ((52 : ℤ) - Int.log 2 (11 / 10 : ℚ))) =
      4953959590107546 := by
    rw [hlog]
    have h := rheQ_eq_up ((11 / 10 : ℚ) * 2 ^ ((52 : ℤ) - 0)) 4953959590107545
      (by norm_num) (by norm_num)
    rw [h]
    norm_num
  unfold floatOfRat
  rw [if_neg hq, hm, hlog]
  norm_num

/-- The full computation the program performs for 23 records over 20
distinct instances: `float(23 / 20)` is the double just below 1.15, so
rounding it to one decimal gives 11 tenths, and the stored result is the
double nearest 1.1. -/
lemma pyAvgFloat_23_20 :
    pyRoundFloat1 (pyDivFloat 23 20) = 4953959590107546 / 4503599627370496 := by
  have hdiv : pyDivFloat 23 20 = 5179139571476070 / 4503599627370496 := by
    unfold pyDivFloat
    rw [show ((23 : ℕ) : ℚ) / ((20 : ℕ) : ℚ) = 23 / 20 by norm_num]
    exact floatOfRat_23_20
  have ht : pyRoundTenths ((5179139571476070 : ℚ) / 4503599627370496) = 11 := by
    unfold pyRoundTenths
    exact rheQ_eq_down _ _ (by norm_num) (by norm_num)
  unfold pyRoundFloat1
  rw [hdiv, ht]
  rw [show ((11 : ℤ) : ℚ) / 10 = 11 / 10 by norm_num]
  exact floatOfRat_11_10

/-- The exact quotient 23/20 = 1.15 rounded to one decimal place: an exact
tie, resolved to 1.2 by ties-to-even (and by ties-away-from-zero). -/
lemma pyRound1_23_20 : pyRound1 ((23 : ℚ) / 20) = 6 / 5 := by
  have hf : ⌊(10 * ((23 : ℚ) / 20))⌋ = 11 :=
    Int.floor_eq_iff.mpr ⟨by norm_num, by norm_num⟩
  unfold pyRound1 pyRoundTenths rheQ
  rw [hf, if_neg (by norm_num), if_neg (by norm_num), if_neg (by norm_num)]
  norm_num

def mkIdRecord (id : String) : AppRecord :=
  { sampleRecord with instance_id := .str id }

/-- 23 records spread over 20 distinct instance ids. -/
def rows23 : List AppRecord :=
  (["i01", "i02", "i03", "i04", "i05", "i06", "i07", "i08", "i09", "i10",
    "i11", "i12", "i13", "i14", "i15", "i16", "i17", "i18", "i19", "i20",
    "i01", "i02", "i03"]).map mkIdRecord

/-- Claim C6 (refuted in its average part): on a dataset of 23 records over
20 distinct instance ids, the program rounds the binary64 double nearest
23/20 — which lies just below 1.15 — so `round(23 / 20, 1)` yields the
double nearest 1.1, the rational 4953959590107546/4503599627370496.  The
exact quotient rounded to one decimal place is 6/5 (ties to even, as in
`pyRound1`, or ties away from zero) or 11/10 (ties toward zero); the program
returns none of these values. -/
theorem C6_counterexample :
    (create_summary_metrics rows23).total_applications = 23 ∧
    (create_summary_metrics rows23).total_instances = 20 ∧
    (create_summary_metrics rows23).avg_apps_per_instance =
      4953959590107546 / 4503599627370496 ∧
    pyRound1 ((23 : ℚ) / 20) = 6 / 5 ∧
    (create_summary_metrics rows23).avg_apps_per_instance ≠ pyRound1 ((23 : ℚ) / 20) ∧
    (create_summary_metrics rows23).avg_apps_per_instance ≠ 11 / 10 := by
  have hn : nunique (rows23.map (fun r => r.instance_id)) = 20 := by decide
  have hl : rows23.length = 23 := by decide
  have havg : (create_summary_metrics rows23).avg_apps_per_instance =
      4953959590107546 / 4503599627370496 := by
    show (if 0 < nunique (rows23.map (fun r => r.instance_id)) then
        pyRoundFloat1 (pyDivFloat rows23.length
          (nunique (rows23.map (fun r => r.instance_id))))
      else 0) = _
    rw [hn, hl, if_pos (by norm_num)]
    exact pyAvgFloat_23_20
  refine ⟨by decide, hn, havg, pyRound1_23_20, ?_, ?_⟩
  · rw [havg, pyRound1_23_20]
    norm_num
  · rw [havg]
    norm_num

/-- Claim C6 (amended): on any dataset whose `instance_id`/`app_type` cells
are not nulls (every record the pipeline builds stores strings there),
`create_summary_metrics` returns the count of distinct `instance_id` values,
the number of records, the count of distinct `app_type` values, and the
average `round(total_applications / total_instances, 1)` computed as CPython
computes it — the quotient correctly rounded to a binary64 double, that
double rounded to the nearest tenth and re-rounded to a double — which can
differ from the exact quotient rounded to one decimal place; the average is
0 when there are no instances. -/
theorem C6_summary_metrics (rows : List AppRecord)
    (hid : ∀ r ∈ rows, r.instance_id ≠ Json.null)
    (hty : ∀ r ∈ rows, r.app_type ≠ Json.null) :
    (create_summary_metrics rows).total_instances =
      (rows.map (fun r => r.instance_id)).toFinset.card ∧
    (create_summary_metrics rows).total_applications = rows.length ∧
    (create_summary_metrics rows).unique_app_types =
      (rows.map (fun r => r.app_type)).toFinset.card ∧
    (create_summary_metrics rows).avg_apps_per_instance =
      (if (create_summary_metrics rows).total_instances = 0 then 0
       else pyRoundFloat1 (pyDivFloat rows.length
         ((rows.map (fun r => r.instance_id)).toFinset.card))) := by
  have hfid : (rows.map (fun r => r.instance_id)).filter (fun x => x != Json.null) =
      rows.map (fun r => r.instance_id) := by
    rw [List.filter_eq_self]
    intro x hx
    obtain ⟨r, hr, rfl⟩ := List.mem_map.mp hx
    simpa using hid r hr
  have hfty : (rows.map (fun r => r.app_type)).filter (fun x => x != Json.null) =
      rows.map (fun r => r.app_type) := by
    rw [List.filter_eq_self]
    intro x hx
    obtain ⟨r, hr, rfl⟩ := List.mem_map.mp hx
    simpa using hty r hr
  have hcard : nunique (rows.map (fun r => r.instance_id)) =
      (rows.map (fun r => r.instance_id)).toFinset.card := by
    unfold nunique
    rw [hfid, List.card_toFinset]
  have hcardty : nunique (rows.map (fun r => r.app_type)) =
      (rows.map (fun r => r.app_type)).toFinset.card := by
    unfold nunique
    rw [hfty, List.card_toFinset]
  refine ⟨hcard, rfl, hcardty, ?_⟩
  show (if 0 < nunique (rows.map (fun r => r.instance_id)) then _ else 0) = _
  by_cases hz : nunique (rows.map (fun r => r.instance_id)) = 0
  · simp [create_summary_metrics, hz]
  · have hpos : 0 < nunique (rows.map (fun r => r.instance_id)) :=
      Nat.pos_of_ne_zero hz
    rw [if_pos hpos, if_neg (by rw [show (create_summary_metrics rows).total_instances =
      nunique (rows.map (fun r => r.instance_id)) from rfl]; exact hz)]
    rw [hcard]

theorem C6_summary_metrics_witness :
    (create_summary_metrics [sampleRecord]).total_instances =
      (([sampleRecord].map (fun r => r.instance_id)).toFinset.card) ∧
    (create_summary_metrics [sampleRecord]).total_applications = [sampleRecord].length ∧
    (create_summary_metrics [sampleRecord]).unique_app_types =
      (([sampleRecord].map (fun r => r.app_type)).toFinset.card) ∧
    (create_summary_metrics [sampleRecord]).avg_apps_per_instance =
      (if (create_summary_metrics [sampleRecord]).total_instances = 0 then 0
       else pyRoundFloat1 (pyDivFloat [sampleRecord].length
         (([sampleRecord].map (fun r => r.instance_id)).toFinset.card))) :=
  C6_summary_metrics [sampleRecord] (by decide) (by decide)

/-! ## Lookup lemmas for the spec-side documents (claim C1) -/

lemma lookupLast_foldl (k : String) :
    ∀ (l : List (String × Json)) (acc : Option Json),
      l.foldl (fun a p => if p.1 = k then some p.2 else a) acc =
        match l.foldl (fun a p => if p.1 = k then some p.2 else a) none with
        | some v => some v
        | none => acc := by
  intro l
  induction l with
  | nil => intro acc; rfl
  | cons p ps ih =>
    intro acc
    rw [List.foldl_cons, List.foldl_cons,
        ih (if p.1 = k then some p.2 else acc), ih (if p.1 = k then some p.2 else none)]
    cases hfold : ps.foldl (fun a p => if p.1 = k then some p.2 else a) none with
    | some v => rfl
    | none => by_cases hp : p.1 = k <;> simp [hp]

lemma lookupLast_append (l1 l2 : List (String × Json)) (k : String) :
    lookupLast (l1 ++ l2) k =
      match lookupLast l2 k with
      | some v => some v
      | none => lookupLast l1 k := by
  unfold lookupLast
  rw [List.foldl_append]
  exact lookupLast_foldl k l2 _

lemma lookupLast_cons (p : String × Json) (l : List (String × Json)) (k : String) :
    lookupLast (p :: l) k =
      match lookupLast l k with
      | some v => some v
      | none => if p.1 = k then some p.2 else none := by
  unfold lookupLast
  rw [List.foldl_cons]
  exact lookupLast_foldl k l _

lemma lookupLast_nil (k : String) : lookupLast [] k = none := rfl

lemma lookupLast_single (k q : String) (v : Json) :
    lookupLast [(k, v)] q = if k = q then some v else none := rfl

lemma lookupLast_optStr_self (k : String) (o : Option String) :
    lookupLast (optStrField k o) k = o.map Json.str := by
  cases o <;> simp [optStrField, lookupLast]

lemma lookupLast_optStr_ne (k q : String) (h : ¬ k = q) (o : Option String) :
    lookupLast (optStrField k o) q = none := by
  cases o <;> simp [optStrField, lookupLast, h]

lemma lookupLast_optIntList_self (k : String) (o : Option (List Int)) :
    lookupLast (optIntListField k o) k =
      o.map (fun l => Json.arr (JList.ofList (l.map Json.num))) := by
  cases o <;> simp [optIntListField, lookupLast]

lemma lookupLast_optIntList_ne (k q : String) (h : ¬ k = q) (o : Option (List Int)) :
    lookupLast (optIntListField k o) q = none := by
  cases o <;> simp [optIntListField, lookupLast, h]

lemma map_str_getD (o : Option String) (a : String) :
    (o.map Json.str).getD (.str a) = .str (o.getD a) := by
  cases o <;> rfl

lemma entry_get_name (e : ApplicationEntry) (d : Json) :
    getFieldD e.fieldList "name" d = .str e.name := by
  unfold getFieldD ApplicationEntry.fieldList
  simp [lookupLast_cons, lookupLast_append, lookupLast_optStr_ne, lookupLast_optIntList_ne]

lemma entry_get_type (e : ApplicationEntry) (d : Json) :
    getFieldD e.fieldList "type" d = (e.type.map Json.str).getD d := by
  unfold getFieldD ApplicationEntry.fieldList
  cases e.type <;>
    simp [lookupLast_cons, lookupLast_append, lookupLast_optStr_ne,
      lookupLast_optIntList_ne, lookupLast_optStr_self]

lemma entry_get_status (e : ApplicationEntry) (d : Json) :
    getFieldD e.fieldList "status" d = (e.status.map Json.str).getD d := by
  unfold getFieldD ApplicationEntry.fieldList
  cases e.status <;>
    simp [lookupLast_cons, lookupLast_append, lookupLast_optStr_ne,
      lookupLast_optIntList_ne, lookupLast_optStr_self]

lemma entry_get_image (e : ApplicationEntry) (d : Json) :
    getFieldD e.fieldList "image" d = (e.image.map Json.str).getD d := by
  unfold getFieldD ApplicationEntry.fieldList
  cases e.image <;>
    simp [lookupLast_cons, lookupLast_append, lookupLast_optStr_ne,
      lookupLast_optIntList_ne, lookupLast_optStr_self]

lemma entry_get_ports (e : ApplicationEntry) (d : Json) :
    getFieldD e.fieldList "ports" d =
      (e.ports.map (fun l => Json.arr (JList.ofList (l.map Json.num)))).getD d := by
  unfold getFieldD ApplicationEntry.fieldList
  cases e.ports <;>
    simp [lookupLast_cons, lookupLast_append, lookupLast_optStr_ne,
      lookupLast_optIntList_ne, lookupLast_optIntList_self]

lemma entry_get_pids (e : ApplicationEntry) (d : Json) :
    getFieldD e.fieldList "pids" d =
      (e.pids.map (fun l => Json.arr (JList.ofList (l.map Json.num)))).getD d := by
  unfold getFieldD ApplicationEntry.fieldList
  cases e.pids <;>
    simp [lookupLast_cons, lookupLast_append, lookupLast_optStr_ne,
      lookupLast_optIntList_ne, lookupLast_optIntList_self]

lemma entry_get_process_name (e : ApplicationEntry) (d : Json) :
    getFieldD e.fieldList "process_name" d = (e.process_name.map Json.str).getD d := by
  unfold getFieldD ApplicationEntry.fieldList
  cases e.process_name <;>
    simp [lookupLast_cons, lookupLast_append, lookupLast_optStr_ne,
      lookupLast_optIntList_ne, lookupLast_optStr_self]

lemma entry_get_container_id (e : ApplicationEntry) (d : Json) :
    getFieldD e.fieldList "container_id" d = (e.container_id.map Json.str).getD d := by
  unfold getFieldD ApplicationEntry.fieldList
  cases e.container_id <;>
    simp [lookupLast_cons, lookupLast_append, lookupLast_optStr_ne,
      lookupLast_optIntList_ne, lookupLast_optStr_self]

lemma pyJoinStr_intList (l : List Int) :
    pyJoinStr (.arr (JList.ofList (l.map Json.num))) =
      .ok (String.intercalate ", " (l.map (fun n => toString n))) := by
  simp only [pyJoinStr]
  rw [toList_ofList_jlist, List.map_map]
  rfl

lemma pyJoinStr_optPorts (o : Option (List Int)) :
    pyJoinStr ((o.map (fun l => Json.arr (JList.ofList (l.map Json.num)))).getD (.arr .nil)) =
      .ok (String.intercalate ", " ((o.getD []).map (fun n => toString n))) := by
  cases o with
  | none => rfl
  | some l => exact pyJoinStr_intList l

lemma extract_record_entry (D : InstanceDocument) (e : ApplicationEntry) :
    extract_record (.str D.instance_id) (.str D.instance_name)
      (.str (D.script_version.getD "Unknown")) e.toJson = .ok (record_of_entry D e) := by
  unfold ApplicationEntry.toJson
  simp only [extract_record, toList_ofList_jfields]
  rw [entry_get_ports, entry_get_pids, pyJoinStr_optPorts, pyJoinStr_optPorts]
  simp only [entry_get_name, entry_get_type, entry_get_status, entry_get_image,
    entry_get_process_name, entry_get_container_id, map_str_getD]
  rfl

lemma doc_get_id (D : InstanceDocument) (d : Json) :
    getFieldD D.fieldList "instance_id" d = .str D.instance_id := by
  unfold getFieldD InstanceDocument.fieldList
  simp [lookupLast_cons, lookupLast_append, lookupLast_single, lookupLast_optStr_ne,
    lookupLast_nil]

lemma doc_get_iname (D : InstanceDocument) (d : Json) :
    getFieldD D.fieldList "instance_name" d = .str D.instance_name := by
  unfold getFieldD InstanceDocument.fieldList
  simp [lookupLast_cons, lookupLast_append, lookupLast_single, lookupLast_optStr_ne,
    lookupLast_nil]

lemma doc_get_sver (D : InstanceDocument) (d : Json) :
    getFieldD D.fieldList "script_version" d =
      (D.script_version.map Json.str).getD d := by
  unfold getFieldD InstanceDocument.fieldList
  cases D.script_version <;>
    simp [lookupLast_cons, lookupLast_append, lookupLast_single,
      lookupLast_optStr_ne, lookupLast_optStr_self, lookupLast_nil]

lemma doc_get_apps (D : InstanceDocument) (d : Json) :
    getFieldD D.fieldList "applications" d =
      .arr (JList.ofList (D.applications.map ApplicationEntry.toJson)) := by
  unfold getFieldD InstanceDocument.fieldList
  simp [lookupLast_cons, lookupLast_append, lookupLast_single, lookupLast_optStr_ne,
    lookupLast_nil]

lemma mapExcept_entries (D : InstanceDocument) :
    ∀ apps : List ApplicationEntry,
      mapExcept (extract_record (.str D.instance_id) (.str D.instance_name)
          (.str (D.script_version.getD "Unknown")))
        (apps.map ApplicationEntry.toJson) =
      .ok (apps.map (record_of_entry D)) := by
  intro apps
  induction apps with
  | nil => rfl
  | cons e es ih =>
    rw [List.map_cons, List.map_cons]
    unfold mapExcept
    rw [extract_record_entry D e, ih]

/-! ## Claim C1: extraction of a valid document -/

/-- Claim C1 (confirmed): for every valid InstanceDocument, extraction
produces exactly one ApplicationRecord per `applications` entry, in document
order (the result is the entry-wise map of the flattening), and every
produced record's `instance_id`, `instance_name` and `script_version` equal
those of the parent document (with the parent's `script_version` defaulting
to "Unknown" when absent). -/
theorem C1_extract_per_entry (D : InstanceDocument) (_hD : D.Valid) :
    extract D.toJson = .ok (D.applications.map (record_of_entry D)) ∧
    (∀ recs, extract D.toJson = .ok recs →
      recs.length = D.applications.length ∧
      ∀ r ∈ recs, r.instance_id = .str D.instance_id ∧
        r.instance_name = .str D.instance_name ∧
        r.script_version = .str (D.script_version.getD "Unknown")) := by
  have hmain : extract D.toJson = .ok (D.applications.map (record_of_entry D)) := by
    unfold InstanceDocument.toJson
    simp only [extract, toList_ofList_jfields]
    rw [doc_get_id, doc_get_iname, doc_get_sver, doc_get_apps, map_str_getD]
    simp only [toList_ofList_jlist]
    exact mapExcept_entries D D.applications
  refine ⟨hmain, ?_⟩
  intro recs hrecs
  rw [hmain] at hrecs
  cases hrecs
  refine ⟨by simp, ?_⟩
  intro r hr
  obtain ⟨e, he, rfl⟩ := List.mem_map.mp hr
  exact ⟨rfl, rfl, rfl⟩

def sampleEntry : ApplicationEntry :=
  { name := "nginx", type := some "docker", status := some "running",
    image := none, ports := some [80, 443], pids := none,
    process_name := none, container_id := none }

def sampleInstanceDoc : InstanceDocument :=
  { instance_id := "i-1", instance_name := "host-a", script_version := none,
    applications := [sampleEntry] }

theorem C1_extract_per_entry_witness :
    extract sampleInstanceDoc.toJson =
      .ok (sampleInstanceDoc.applications.map (record_of_entry sampleInstanceDoc)) ∧
    (∀ recs, extract sampleInstanceDoc.toJson = .ok recs →
      recs.length = sampleInstanceDoc.applications.length ∧
      ∀ r ∈ recs, r.instance_id = .str sampleInstanceDoc.instance_id ∧
        r.instance_name = .str sampleInstanceDoc.instance_name ∧
        r.script_version = .str (sampleInstanceDoc.script_version.getD "Unknown")) :=
  C1_extract_per_entry sampleInstanceDoc (by decide)


/-! ## Order lemmas for the busiest-instance tie-break (claim C2) -/

lemma lexLe_refl : ∀ l : List Char, lexLe l l = true
  | [] => rfl
  | c :: cs => by
    unfold lexLe
    rw [if_neg (lt_irrefl c.toNat), if_neg (lt_irrefl c.toNat)]
    exact lexLe_refl cs

lemma lexLe_total : ∀ as bs : List Char, lexLe as bs = true ∨ lexLe bs as = true
  | [], _ => Or.inl rfl
  | _ :: _, [] => Or.inr rfl
  | a :: as, b :: bs => by
    unfold lexLe
    rcases Nat.lt_trichotomy a.toNat b.toNat with h | h | h
    · left; rw [if_pos h]
    · rw [if_neg (by omega), if_neg (by omega), if_neg (by omega), if_neg (by omega)]
      exact lexLe_total as bs
    · right; rw [if_pos h]

lemma lexLe_cons_iff (a b : Char) (as bs : List Char) :
    lexLe (a :: as) (b :: bs) = true ↔
      a.toNat < b.toNat ∨ (a.toNat = b.toNat ∧ lexLe as bs = true) := by
  show (if a.toNat < b.toNat then true
    else if b.toNat < a.toNat then false else lexLe as bs) = true ↔ _
  by_cases h1 : a.toNat < b.toNat
  · simp [h1]
  · by_cases h2 : b.toNat < a.toNat
    · rw [if_neg h1, if_pos h2]
      constructor
      · intro hf
        exact absurd hf (by simp)
      · rintro (h | ⟨h, _⟩) <;> omega
    · rw [if_neg h1, if_neg h2]
      have he : a.toNat = b.toNat := by omega
      constructor
      · intro hf
        exact Or.inr ⟨he, hf⟩
      · rintro (h | ⟨_, h⟩)
        · omega
        · exact h

lemma lexLe_trans : ∀ as bs cs : List Char,
    lexLe as bs = true → lexLe bs cs = true → lexLe as cs = true
  | [], _, _, _, _ => rfl
  | _ :: _, [], _, h1, _ => by simp [lexLe] at h1
  | _ :: _, _ :: _, [], _, h2 => by simp [lexLe] at h2
  | a :: as, b :: bs, c :: cs, h1, h2 => by
    rw [lexLe_cons_iff] at h1 h2 ⊢
    rcases h1 with h1 | ⟨h1e, h1r⟩
    · rcases h2 with h2 | ⟨h2e, _⟩
      · exact Or.inl (by omega)
      · exact Or.inl (by omega)
    · rcases h2 with h2 | ⟨h2e, h2r⟩
      · exact Or.inl (by omega)
      · exact Or.inr ⟨by omega, lexLe_trans as bs cs h1r h2r⟩

lemma strLe_refl (a : String) : strLe a a = true := lexLe_refl a.data

lemma strLe_total (a b : String) : strLe a b = true ∨ strLe b a = true :=
  lexLe_total a.data b.data

lemma strLe_trans (a b c : String) :
    strLe a b = true → strLe b c = true → strLe a c = true :=
  lexLe_trans a.data b.data c.data

lemma mem_insertSorted (a x : String) :
    ∀ l : List String, x ∈ insertSorted a l ↔ x = a ∨ x ∈ l
  | [] => by simp [insertSorted]
  | b :: bs => by
    unfold insertSorted
    by_cases h : strLe a b = true
    · rw [if_pos h]
      exact List.mem_cons
    · rw [if_neg h, List.mem_cons, mem_insertSorted a x bs, List.mem_cons]
      tauto

lemma sorted_insertSorted (a : String) :
    ∀ l : List String, l.Pairwise (fun p q => strLe p q = true) →
      (insertSorted a l).Pairwise (fun p q => strLe p q = true)
  | [], _ => by simp [insertSorted]
  | b :: bs, h => by
    unfold insertSorted
    rcases List.pairwise_cons.mp h with ⟨hb, hbs⟩
    by_cases hab : strLe a b = true
    · rw [if_pos hab]
      refine List.pairwise_cons.mpr ⟨?_, h⟩
      intro y hy
      rcases List.mem_cons.mp hy with rfl | hy2
      · exact hab
      · exact strLe_trans a b y hab (hb y hy2)
    · rw [if_neg hab]
      have hba : strLe b a = true := (strLe_total a b).resolve_left hab
      refine List.pairwise_cons.mpr ⟨?_, sorted_insertSorted a bs hbs⟩
      intro y hy
      rcases (mem_insertSorted a y bs).mp hy with rfl | hy2
      · exact hba
      · exact hb y hy2

lemma sorted_sortKeys (l : List String) :
    (sortKeys l).Pairwise (fun p q => strLe p q = true) := by
  induction l with
  | nil => simp [sortKeys]
  | cons x xs ih => exact sorted_insertSorted x (sortKeys xs) ih

lemma mem_sortKeys (x : String) (l : List String) : x ∈ sortKeys l ↔ x ∈ l := by
  induction l with
  | nil => simp [sortKeys]
  | cons y ys ih =>
    show x ∈ insertSorted y (sortKeys ys) ↔ _
    rw [mem_insertSorted, List.mem_cons, ih]

lemma mem_firstOccurrencesAux (x : String) :
    ∀ (l seen : List String),
      x ∈ firstOccurrencesAux seen l ↔ (x ∈ l ∧ x ∉ seen)
  | [], seen => by simp [firstOccurrencesAux]
  | y :: ys, seen => by
    unfold firstOccurrencesAux
    by_cases h : seen.contains y
    · have hy : y ∈ seen := List.elem_iff.mp h
      rw [if_pos h, mem_firstOccurrencesAux x ys seen, List.mem_cons]
      constructor
      · rintro ⟨h1, h2⟩
        exact ⟨Or.inr h1, h2⟩
      · rintro ⟨h1 | h1, h2⟩
        · exact absurd (h1 ▸ hy) h2
        · exact ⟨h1, h2⟩
    · have hy : y ∉ seen := fun hm => h (List.elem_iff.mpr hm)
      rw [if_neg h]
      constructor
      · intro hx
        rcases List.mem_cons.mp hx with rfl | hx2
        · exact ⟨List.mem_cons_self _ _, hy⟩
        · obtain ⟨h1, h2⟩ := (mem_firstOccurrencesAux x ys (y :: seen)).mp hx2
          exact ⟨List.mem_cons_of_mem _ h1, fun hm => h2 (List.mem_cons_of_mem _ hm)⟩
      · rintro ⟨h1, h2⟩
        rcases List.mem_cons.mp h1 with rfl | h3
        · exact List.mem_cons_self _ _
        · by_cases hxy : x = y
          · rw [hxy]
            exact List.mem_cons_self _ _
          · refine List.mem_cons_of_mem _ ?_
            refine (mem_firstOccurrencesAux x ys (y :: seen)).mpr ⟨h3, fun hm => ?_⟩
            rcases List.mem_cons.mp hm with h4 | h4
            · exact hxy h4
            · exact h2 h4

lemma mem_firstOccurrences (x : String) (l : List String) :
    x ∈ firstOccurrences l ↔ x ∈ l := by
  unfold firstOccurrences
  rw [mem_firstOccurrencesAux]
  simp

lemma idxmaxGo_mem (f : String → Nat) :
    ∀ (l : List String) (b : String), idxmaxGo f b l = b ∨ idxmaxGo f b l ∈ l
  | [], _ => Or.inl rfl
  | y :: ys, b => by
    unfold idxmaxGo
    by_cases h : f b < f y
    · rw [if_pos h]
      rcases idxmaxGo_mem f ys y with h2 | h2
      · refine Or.inr ?_
        rw [h2]
        exact List.mem_cons_self _ _
      · exact Or.inr (List.mem_cons_of_mem _ h2)
    · rw [if_neg h]
      rcases idxmaxGo_mem f ys b with h2 | h2
      · exact Or.inl h2
      · exact Or.inr (List.mem_cons_of_mem _ h2)

lemma idxmaxGo_le (f : String → Nat) :
    ∀ (l : List String) (b : String),
      f b ≤ f (idxmaxGo f b l) ∧ ∀ y ∈ l, f y ≤ f (idxmaxGo f b l)
  | [], _ => ⟨le_refl _, by simp⟩
  | y :: ys, b => by
    unfold idxmaxGo
    by_cases h : f b < f y
    · rw [if_pos h]
      obtain ⟨h1, h2⟩ := idxmaxGo_le f ys y
      refine ⟨le_trans (le_of_lt h) h1, ?_⟩
      intro z hz
      rcases List.mem_cons.mp hz with rfl | hz2
      · exact h1
      · exact h2 z hz2
    · rw [if_neg h]
      obtain ⟨h1, h2⟩ := idxmaxGo_le f ys b
      refine ⟨h1, ?_⟩
      intro z hz
      rcases List.mem_cons.mp hz with rfl | hz2
      · exact le_trans (Nat.le_of_not_lt h) h1
      · exact h2 z hz2

lemma idxmaxGo_first (f : String → Nat) :
    ∀ (l : List String) (b : String),
      (b :: l).Pairwise (fun p q => strLe p q = true) →
      ∀ m, (m = b ∨ m ∈ l) → f m = f (idxmaxGo f b l) →
        strLe (idxmaxGo f b l) m = true
  | [], b, _, m, hm, _ => by
    rcases hm with rfl | hm
    · exact strLe_refl m
    · simp at hm
  | y :: ys, b, hp, m, hm, hfm => by
    rcases List.pairwise_cons.mp hp with ⟨hb, hp2⟩
    unfold idxmaxGo at hfm ⊢
    by_cases h : f b < f y
    · rw [if_pos h] at hfm ⊢
      rcases hm with rfl | hm2
      · exfalso
        have h1 := (idxmaxGo_le f ys y).1
        omega
      · exact idxmaxGo_first f ys y hp2 m (List.mem_cons.mp hm2) hfm
    · rw [if_neg h] at hfm ⊢
      have hpb : (b :: ys).Pairwise (fun p q => strLe p q = true) := by
        refine List.pairwise_cons.mpr ⟨?_, (List.pairwise_cons.mp hp2).2⟩
        intro z hz
        exact hb z (List.mem_cons_of_mem _ hz)
      rcases hm with rfl | hm2
      · exact idxmaxGo_first f ys m hpb m (Or.inl rfl) hfm
      · rcases List.mem_cons.mp hm2 with rfl | hm3
        · have h1 := (idxmaxGo_le f ys b).1
          have hfb : f b = f (idxmaxGo f b ys) := by omega
          have hrb : strLe (idxmaxGo f b ys) b = true :=
            idxmaxGo_first f ys b hpb b (Or.inl rfl) hfb
          exact strLe_trans _ _ _ hrb (hb m (List.mem_cons_self _ _))
        · exact idxmaxGo_first f ys b hpb m (Or.inr hm3) hfm

/-! ## Claim C2: busiest instance -/

/-- Claim C2 (refuted in its tie-break part): on the dataset whose
`instance_name` cells are "b" then "a" (one record each, tied counts),
`groupby('instance_name').size().idxmax()` returns "a" — pandas sorts the
group keys, so the lexicographically smallest tied name wins — while the
claimed first-encountered rule would return "b". -/
theorem C2_counterexample :
    ([{ sampleRecord with instance_name := Json.str "b" },
      { sampleRecord with instance_name := Json.str "a" }].map
        (fun r => r.instance_name)) = (["b", "a"].map Json.str) ∧
    busiest_instance ["b", "a"] = some "a" ∧
    busiest_first_encountered ["b", "a"] = some "b" ∧
    busiest_instance ["b", "a"] ≠ busiest_first_encountered ["b", "a"] := by
  decide

/-- Claim C2 (amended): for every non-empty dataset (whose `instance_name`
cells are strings), `busiest_instance` returns an instance name with the
greatest number of records; when several names are tied for the greatest
count, the lexicographically smallest tied name (code-point order, the order
pandas sorts group keys in) is chosen — not the first-encountered one. -/
theorem C2_busiest_lex (rows : List AppRecord) (names : List String)
    (_hlink : rows.map (fun r => r.instance_name) = names.map Json.str)
    (hne : names ≠ []) :
    ∃ b, busiest_instance names = some b ∧ b ∈ names ∧
      (∀ n ∈ names, names.count n ≤ names.count b) ∧
      (∀ n ∈ names, names.count n = names.count b → strLe b n = true) := by
  unfold busiest_instance
  cases hs : sortKeys (firstOccurrences names) with
  | nil =>
    exfalso
    cases names with
    | nil => exact hne rfl
    | cons x xs =>
      have hx : x ∈ sortKeys (firstOccurrences (x :: xs)) :=
        (mem_sortKeys x _).mpr
          ((mem_firstOccurrences x _).mpr (List.mem_cons_self _ _))
      rw [hs] at hx
      simp at hx
  | cons x xs =>
    refine ⟨idxmaxGo (fun k => names.count k) x xs, rfl, ?_, ?_, ?_⟩
    · have hmem : idxmaxGo (fun k => names.count k) x xs ∈ x :: xs := by
        rcases idxmaxGo_mem (fun k => names.count k) xs x with h | h
        · rw [h]
          exact List.mem_cons_self _ _
        · exact List.mem_cons_of_mem _ h
      rw [← hs] at hmem
      exact (mem_firstOccurrences _ _).mp ((mem_sortKeys _ _).mp hmem)
    · intro n hn
      have hn2 : n ∈ x :: xs := by
        rw [← hs]
        exact (mem_sortKeys n _).mpr ((mem_firstOccurrences n _).mpr hn)
      rcases List.mem_cons.mp hn2 with rfl | h3
      · exact (idxmaxGo_le (fun k => names.count k) xs n).1
      · exact (idxmaxGo_le (fun k => names.count k) xs x).2 n h3
    · intro n hn hcnt
      have hsorted : (x :: xs).Pairwise (fun p q => strLe p q = true) := by
        rw [← hs]
        exact sorted_sortKeys _
      have hn2 : n ∈ x :: xs := by
        rw [← hs]
        exact (mem_sortKeys n _).mpr ((mem_firstOccurrences n _).mpr hn)
      exact idxmaxGo_first (fun k => names.count k) xs x hsorted n
        (List.mem_cons.mp hn2) hcnt

theorem C2_busiest_lex_witness :
    ∃ b, busiest_instance ["a", "b", "b"] = some b ∧ b ∈ ["a", "b", "b"] ∧
      (∀ n ∈ ["a", "b", "b"], (["a", "b", "b"] : List String).count n ≤
        (["a", "b", "b"] : List String).count b) ∧
      (∀ n ∈ ["a", "b", "b"], (["a", "b", "b"] : List String).count n =
        (["a", "b", "b"] : List String).count b → strLe b n = true) :=
  C2_busiest_lex
    [{ sampleRecord with instance_name := Json.str "a" },
     { sampleRecord with instance_name := Json.str "b" },
     { sampleRecord with instance_name := Json.str "b" }]
    ["a", "b", "b"] (by decide) (by decide)
